import Mathlib

/-!
Shallow embedding of the data-acquisition and history-synthesis core of
`src/app.py` (class `CBRDataFetcher` of the currency-analyzer-cbr repository).

Numbers are modelled as rationals; Python's `round(x, n)` is modelled by
rounding `x * 10^n` to the nearest integer.  The ambient random source
(`random.uniform`) is threaded through as explicit sample parameters; the
contract of `random.uniform(lo, hi)` — the sample lies in `[lo, hi]` — appears
as a hypothesis where a claim depends on it.  Calendar dates are modelled as
integers counting days from a fixed Monday, so that Python's
`date.weekday() < 5` becomes `d % 7 < 5`.
-/

/-- Value of a decimal digit character, `none` on a non-digit.  Models the
per-character behaviour of Python's numeric string parsing. -/
def charDigit (c : Char) : Option ℕ :=
  if c.isDigit then some (c.toNat - 48) else none

/-- Accumulator loop for a run of decimal digits. -/
def parseDigitsAux : List Char → ℕ → Option ℕ
  | [], acc => some acc
  | c :: cs, acc =>
    match charDigit c with
    | none => none
    | some d => parseDigitsAux cs (10 * acc + d)

/-- Parse a nonempty run of decimal digits; `none` on the empty list or any
non-digit character. -/
def parseDigits (l : List Char) : Option ℕ :=
  match l with
  | [] => none
  | _ => parseDigitsAux l 0

/-- Split an unsigned decimal literal `digits['.'digits]` into
(integer part, fractional part, number of fractional digits). -/
def decimalParts (l : List Char) : Option (ℕ × ℕ × ℕ) :=
  let ip := l.takeWhile (fun c => c ≠ '.')
  match l.dropWhile (fun c => c ≠ '.') with
  | [] => (parseDigits ip).map (fun n => (n, 0, 0))
  | _ :: frac =>
    match parseDigits ip, parseDigits frac with
    | some n, some f => some (n, f, frac.length)
    | _, _ => none

/-- Rational value of the split decimal literal. -/
def partsVal (p : ℕ × ℕ × ℕ) : ℚ := (p.1 : ℚ) + (p.2.1 : ℚ) / (10 : ℚ) ^ p.2.2

/-- Model of Python's `float(s)` on plain decimal literals (optional leading
minus sign, digits, optional dot and fractional digits); `none` models `float`
raising `ValueError`. -/
def parseDecimal (s : String) : Option ℚ :=
  match s.data with
  | [] => none
  | c :: cs =>
    if c = '-' then (decimalParts cs).map (fun p => -(partsVal p))
    else (decimalParts (c :: cs)).map partsVal

/-- Model of `s.replace(',', '.')` from `app.py` line 50 (values in the CBR
feed use a locale comma as the decimal separator). -/
def replaceComma (s : String) : String :=
  String.mk (s.data.map (fun c => if c = ',' then '.' else c))

/-- Model of Python's `int(s)` on plain integer literals; `none` models `int`
raising `ValueError`. -/
def parseInt (s : String) : Option ℤ :=
  match s.data with
  | [] => none
  | c :: cs =>
    if c = '-' then (parseDigits cs).map (fun n => -(n : ℤ))
    else (parseDigits (c :: cs)).map (fun n => (n : ℤ))

/-- Model of Python's `round(x, 2)`. -/
def round2 (q : ℚ) : ℚ := (round (q * 100) : ℚ) / 100

/-- Model of Python's `round(x, 4)`. -/
def round4 (q : ℚ) : ℚ := (round (q * 10000) : ℚ) / 10000

/-- One `<Valute>` record of the CBR XML daily feed, as consumed by
`get_current_usd_rate`: the optional text of its `CharCode`, `Value`,
`Nominal` and `VunitRate` child elements (`none` = element absent). -/
structure Valute where
  charCode : Option String
  value : Option String
  nominal : Option String
  vunitRate : Option String
deriving DecidableEq

/-- The parsed XML document: the root's `Date` attribute and its `Valute`
children in document order. -/
structure XmlDoc where
  dateAttr : Option String
  valutes : List Valute
deriving DecidableEq

/-- The dictionary returned by `CBRDataFetcher.get_current_usd_rate`
(`app.py` lines 71–81 and 94–104). -/
structure Quote where
  rate : ℚ
  raw_rate : ℚ
  vunit_rate : ℚ
  change : ℚ
  change_percent : ℚ
  date : String
  nominal : ℤ
  source : String
  is_real_data : Bool
deriving DecidableEq

/-- Outcome of the HTTP GET + XML parse collaborators inside the `try` block
of `get_current_usd_rate`: the request raising a transport error or timeout,
`raise_for_status` firing, `ET.fromstring` failing on a malformed payload,
or a successfully parsed document. -/
inductive FetchOutcome where
  | transportError
  | timeout
  | badStatus
  | malformed
  | parsed (doc : XmlDoc)
deriving DecidableEq

/-- Nominal extraction (`app.py` lines 54–56): default `1` when the element is
absent, else `int(...)` of its text, whose failure is an exception. -/
def parseNominal (o : Option String) : Option ℤ :=
  match o with
  | none => some 1
  | some s => parseInt s

/-- VunitRate extraction (`app.py` lines 59–62): default to the parsed rate
when the element is absent, else `float(...)` of its comma-normalized text. -/
def parseVunit (o : Option String) (rate : ℚ) : Option ℚ :=
  match o with
  | none => some rate
  | some s => parseDecimal (replaceComma s)

/-- Result of the `for valute in root.findall('Valute')` loop: an early
`return` with a quote, an exception escaping the loop body, or normal loop
exit carrying the final value of the `usd_found` flag. -/
inductive LoopResult where
  | ret (q : Quote)
  | exn
  | done (usdFound : Bool)
deriving DecidableEq

/-- The `Valute` scanning loop of `get_current_usd_rate` (`app.py` lines
38–81).  `changeSample` is the value drawn by `random.uniform(-0.3, 0.3)` on
the success path.  A record whose `CharCode` is `USD` but whose `Value`
element is absent sets `usd_found` and falls through to the next record; a
parse failure, or a zero rate making `change / rate` raise
`ZeroDivisionError`, is an exception. -/
def scanValutes (dateStr : String) (changeSample : ℚ) :
    List Valute → Bool → LoopResult
  | [], found => .done found
  | v :: rest, found =>
    if v.charCode = some "USD" then
      match v.value with
      | none => scanValutes dateStr changeSample rest true
      | some vs =>
        match parseDecimal (replaceComma vs) with
        | none => .exn
        | some rate =>
          match parseNominal v.nominal with
          | none => .exn
          | some nom =>
            match parseVunit v.vunitRate rate with
            | none => .exn
            | some vunit =>
              if rate = 0 then .exn
              else
                .ret
                  { rate := round2 rate
                    raw_rate := rate
                    vunit_rate := round4 vunit
                    change := round2 changeSample
                    change_percent := round2 (changeSample / rate * 100)
                    date := dateStr
                    nominal := nom
                    source := "cbr.ru"
                    is_real_data := true }
    else scanValutes dateStr changeSample rest found

/-- The synthetic fallback quote (`app.py` lines 90–104): `jitter` is the
sample of `random.uniform(-0.2, 0.2)`, `changeS` the sample of
`random.uniform(-0.5, 0.5)`, `todayStr` the formatted current date. -/
def fallbackQuote (jitter changeS : ℚ) (todayStr : String) : Quote :=
  { rate := round2 (7823 / 100 + jitter)
    raw_rate := 7823 / 100
    vunit_rate := round4 (7823 / 100)
    change := round2 changeS
    change_percent := round2 (changeS / (7823 / 100) * 100)
    date := todayStr
    nominal := 1
    source := "demo (на основе данных ЦБ РФ)"
    is_real_data := false }

/-- `CBRDataFetcher.get_current_usd_rate` (`app.py` lines 17–104).  Every
exception inside the `try` block — transport error, timeout, HTTP error
status, malformed XML, a parse failure inside the loop, or the explicit
`raise` when no record matches USD — is caught by the bare `except` and
control falls through to the fallback; a completed loop whose USD record had
no `Value` element falls through to the fallback as well.  `afterLoop` is the
control flow after the loop: an early `return` yields its quote, everything
else reaches the fallback code at line 90. -/
def afterLoop (fb : Quote) : LoopResult → Quote
  | .ret q => q
  | .exn => fb
  | .done _ => fb

def get_current_usd_rate (outcome : FetchOutcome)
    (changeSample jitterSample fbChangeSample : ℚ) (todayStr : String) :
    Quote :=
  match outcome with
  | .parsed doc =>
    afterLoop (fallbackQuote jitterSample fbChangeSample todayStr)
      (scanValutes (doc.dateAttr.getD todayStr) changeSample doc.valutes false)
  | _ => fallbackQuote jitterSample fbChangeSample todayStr

/-- The collaborator outcomes enumerated by the error-handling claims:
transport error, timeout, bad HTTP status, malformed payload, or a
well-formed payload in which no record's currency code matches USD. -/
def failedOutcome (o : FetchOutcome) : Prop :=
  o = .transportError ∨ o = .timeout ∨ o = .badStatus ∨ o = .malformed ∨
    ∃ doc, o = .parsed doc ∧ ∀ v ∈ doc.valutes, v.charCode ≠ some "USD"

/-- A well-formed document containing a USD record, all of whose USD records
lack a `Value` element. -/
def usdNoValue (doc : XmlDoc) : Prop :=
  (∃ v ∈ doc.valutes, v.charCode = some "USD") ∧
    ∀ v ∈ doc.valutes, v.charCode = some "USD" → v.value = none

/-- One point of the synthesized series (`app.py` lines 138–142); the date is
a day number (days since a fixed Monday), standing for the `datetime` whose
formatted forms the code stores. -/
structure HistoryPoint where
  date : ℤ
  price : ℚ
deriving DecidableEq

/-- The band clamp of `app.py` lines 135–136: if the running price deviates
from the anchor by more than 3, snap it to anchor ± 3. -/
def clampBand (base p : ℚ) : ℚ :=
  if 3 < |p - base| then (if base < p then base + 3 else base - 3) else p

/-- The stored (rounded) price of day `i` of the synthesized series:
day 0 stores `round(real_rate, 2)`; day `i+1` adds the volatility sample
`vol (i+1)` and the trend `real_rate * 0.001` onto the previously stored
price, clamps to the band, and stores the result rounded to 2 decimals
(`app.py` lines 112–142). -/
def storedPrice (a : ℚ) (vol : ℕ → ℚ) : ℕ → ℚ
  | 0 => round2 a
  | i + 1 => round2 (clampBand a (storedPrice a vol i + vol (i + 1) + a * (1 / 1000)))

/-- The pre-clamp, pre-round running price of day `i` (`app.py` line 132):
previous stored price + volatility sample + trend. -/
def rawPrice (a : ℚ) (vol : ℕ → ℚ) : ℕ → ℚ
  | 0 => a
  | i + 1 => storedPrice a vol i + vol (i + 1) + a * (1 / 1000)

/-- The date of point `i`: `datetime.now() - timedelta(days=days-1-i)`
(`app.py` line 113), as a day number. -/
def histDate (today : ℤ) (days i : ℕ) : ℤ := today - (days : ℤ) + 1 + i

/-- Python's `date.weekday() < 5` (`app.py` line 125) on day numbers counted
from a Monday. -/
def isWeekday (d : ℤ) : Bool := d.emod 7 < 5

/-- `CBRDataFetcher.generate_historical_data` (`app.py` lines 106–144):
`days` points on consecutive days ending `today`, prices from the bounded
random walk.  `vol i` is the sample `random.uniform(-0.8, 0.8)` (weekday) or
`random.uniform(-0.2, 0.2)` (weekend) drawn on iteration `i ≥ 1`. -/
def generate_historical_data (a : ℚ) (days : ℕ) (today : ℤ) (vol : ℕ → ℚ) :
    List HistoryPoint :=
  (List.range days).map (fun i => { date := histDate today days i, price := storedPrice a vol i })

/-- Contract of the random source for the history generator: each sample
drawn on iteration `i` (1 ≤ i < days) lies in the uniform range the code
requested for that day — ±0.8 on weekdays, ±0.2 on weekends. -/
def volValid (today : ℤ) (days : ℕ) (vol : ℕ → ℚ) : Prop :=
  ∀ i < days, 1 ≤ i →
    if isWeekday (histDate today days i)
    then -(4 / 5) ≤ vol i ∧ vol i ≤ 4 / 5
    else -(1 / 5) ≤ vol i ∧ vol i ≤ 1 / 5

/-- Modelled from the spec: the proxy-rotation revision of the fetch step
(spec sections 2 and 4.1, strategies 2–4) is one of the three revisions the
spec describes but is not among the files under src/; a network attempt is a
timeout, a connection error, or an HTTP response with a status code and an
optionally parseable XML body. -/
inductive NetAttempt where
  | timeout
  | connError
  | resp (status : ℕ) (body : Option XmlDoc)
deriving DecidableEq

/-- Modelled from the spec (section 4.1, strategy 1): locate the record whose
currency code matches the target, read its value and nominal fields with the
locale comma normalized, and compute rate = value / nominal. -/
def specExtractRate (doc : XmlDoc) : Option ℚ :=
  doc.valutes.findSome? (fun v =>
    if v.charCode = some "USD" then
      match v.value.bind (fun s => parseDecimal (replaceComma s)),
          parseNominal v.nominal with
      | some q, some n => if (n : ℚ) = 0 then none else some (q / (n : ℚ))
      | _, _ => none
    else none)

/-- Modelled from the spec (section 4.1, strategy 2): one attempt yields a
usable rate exactly when it is an HTTP 200 response whose body parses and
contains the target record; a timeout, connection error or any other failure
yields nothing. -/
def attemptRate (a : NetAttempt) : Option ℚ :=
  match a with
  | .resp s (some doc) => if s = 200 then specExtractRate doc else none
  | _ => none

/-- Modelled from the spec (section 4.1, strategy 2): try the proxy relays in
order, short-circuiting on the first usable HTTP 200 answer; each failing
relay is discarded without aborting the remaining list. -/
def tryProxies : List NetAttempt → Option ℚ
  | [] => none
  | p :: rest =>
    match attemptRate p with
    | some q => some q
    | none => tryProxies rest

/-- Modelled from the spec (section 4.1, strategy 3): alternate third-party
sources, abstracted to the rate each one's extraction yields, tried in
order. -/
def tryAlternates : List (Option ℚ) → Option ℚ
  | [] => none
  | a :: rest =>
    match a with
    | some q => some q
    | none => tryAlternates rest

/-- Modelled from the spec (section 3): the RateQuote fields the proxy claim
is about. -/
structure SpecQuote where
  rate : ℚ
  source : String
  isRealData : Bool
deriving DecidableEq

/-- Modelled from the spec (section 4.1, strategies 3–4): the tail of the
strategy chain — alternate sources, then the deterministic fallback. -/
def quoteFromAlternates (alternates : List (Option ℚ)) (jitter : ℚ) : SpecQuote :=
  match tryAlternates alternates with
  | some q => ⟨round2 q, "alternate-api", true⟩
  | none => ⟨round2 (7823 / 100 + jitter), "demo (fallback)", false⟩

/-- Modelled from the spec (section 4.1, strategy 2): the proxy tier of the
strategy chain, falling through to the alternates tier. -/
def quoteFromProxies (proxies : List NetAttempt) (alternates : List (Option ℚ))
    (jitter : ℚ) : SpecQuote :=
  match tryProxies proxies with
  | some q => ⟨round2 q, "cbr.ru (proxy)", true⟩
  | none => quoteFromAlternates alternates jitter

/-- Modelled from the spec (section 4.1): the resolver of the proxy-rotation
revision — primary direct attempt, then the same source through each proxy
relay in order, then alternate sources, then the deterministic fallback. -/
def resolve (primary : NetAttempt) (proxies : List NetAttempt)
    (alternates : List (Option ℚ)) (jitter : ℚ) : SpecQuote :=
  match attemptRate primary with
  | some q => ⟨round2 q, "cbr.ru", true⟩
  | none => quoteFromProxies proxies alternates jitter

/-- The document used in the proxy scenario: one record, USD, value `78,23`,
nominal `1`. -/
def doc7823 : XmlDoc := ⟨none, [⟨some "USD", some "78,23", some "1", none⟩]⟩

theorem round2_close (x : ℚ) : |round2 x - x| ≤ 1 / 200 := by
  have h := abs_sub_round (x * 100)
  have e : round2 x - x = -((x * 100 - (round (x * 100) : ℚ)) / 100) := by
    unfold round2; ring
  rw [e, abs_neg, abs_div, abs_of_pos (show (0 : ℚ) < 100 by norm_num)]
  linarith

theorem round2_mono {x y : ℚ} (h : x ≤ y) : round2 x ≤ round2 y := by
  unfold round2
  have hr : round (x * 100) ≤ round (y * 100) := by
    rw [round_eq, round_eq]
    exact Int.floor_le_floor (by linarith)
  have hc : ((round (x * 100) : ℤ) : ℚ) ≤ ((round (y * 100) : ℤ) : ℚ) := by
    exact_mod_cast hr
  linarith

theorem round2_idem (x : ℚ) : round2 (round2 x) = round2 x := by
  unfold round2
  rw [div_mul_cancel₀ _ (show (100 : ℚ) ≠ 0 by norm_num), round_intCast]

theorem clampBand_close (a x : ℚ) : |clampBand a x - a| ≤ 3 := by
  unfold clampBand
  split_ifs with h1 h2
  · rw [show a + 3 - a = 3 by ring]; norm_num
  · rw [show a - 3 - a = -3 by ring]; norm_num
  · exact not_lt.mp h1

theorem storedPrice_close (a : ℚ) (vol : ℕ → ℚ) (i : ℕ) :
    |storedPrice a vol i - a| ≤ 3 + 1 / 200 := by
  cases i with
  | zero =>
    simp only [storedPrice]
    linarith [round2_close a]
  | succ n =>
    have h1 := round2_close (clampBand a (storedPrice a vol n + vol (n + 1) + a * (1 / 1000)))
    have h2 := clampBand_close a (storedPrice a vol n + vol (n + 1) + a * (1 / 1000))
    have h3 := abs_sub_le
      (round2 (clampBand a (storedPrice a vol n + vol (n + 1) + a * (1 / 1000))))
      (clampBand a (storedPrice a vol n + vol (n + 1) + a * (1 / 1000))) a
    simp only [storedPrice]
    linarith

theorem storedPrice_round2 (a : ℚ) (vol : ℕ → ℚ) (i : ℕ) :
    round2 (storedPrice a vol i) = storedPrice a vol i := by
  cases i <;> simp only [storedPrice] <;> rw [round2_idem]

theorem scan_no_usd (d : String) (c : ℚ) :
    ∀ (l : List Valute) (b : Bool), (∀ v ∈ l, v.charCode ≠ some "USD") →
      scanValutes d c l b = .done b
  | [], b, _ => rfl
  | v :: rest, b, h => by
    have hv : v.charCode ≠ some "USD" := h v (List.mem_cons_self ..)
    simp only [scanValutes, if_neg hv]
    exact scan_no_usd d c rest b (fun w hw => h w (List.mem_cons_of_mem _ hw))

theorem scan_usd_skip (d : String) (c : ℚ) :
    ∀ (l : List Valute) (b : Bool),
      (∀ v ∈ l, v.charCode = some "USD" → v.value = none) →
      ∃ b2, scanValutes d c l b = .done b2
  | [], b, _ => ⟨b, rfl⟩
  | v :: rest, b, h => by
    by_cases hv : v.charCode = some "USD"
    · have hval : v.value = none := h v (List.mem_cons_self ..) hv
      simp only [scanValutes, if_pos hv, hval]
      exact scan_usd_skip d c rest true (fun w hw => h w (List.mem_cons_of_mem _ hw))
    · simp only [scanValutes, if_neg hv]
      exact scan_usd_skip d c rest b (fun w hw => h w (List.mem_cons_of_mem _ hw))

theorem failed_fallback {o : FetchOutcome} (cS jS fS : ℚ) (t : String)
    (ho : failedOutcome o) :
    get_current_usd_rate o cS jS fS t = fallbackQuote jS fS t := by
  rcases ho with h | h | h | h | ⟨doc, rfl, hdoc⟩
  · subst h; rfl
  · subst h; rfl
  · subst h; rfl
  · subst h; rfl
  · show afterLoop _ (scanValutes _ _ _ _) = _
    rw [scan_no_usd _ _ _ _ hdoc]
    rfl

theorem tryProxies_append_none :
    ∀ (bad : List NetAttempt), (∀ b ∈ bad, attemptRate b = none) →
      ∀ l, tryProxies (bad ++ l) = tryProxies l
  | [], _, _ => rfl
  | b :: bs, h, l => by
    have hb : attemptRate b = none := h b (List.mem_cons_self ..)
    simp only [List.cons_append, tryProxies, hb]
    exact tryProxies_append_none bs (fun x hx => h x (List.mem_cons_of_mem _ hx)) l

theorem scan_single_usd (d : String) (cS : ℚ) (vs ns : String) (q : ℚ) (n : ℤ)
    (hv : parseDecimal (replaceComma vs) = some q) (hq : q ≠ 0)
    (hn : parseInt ns = some n) :
    scanValutes d cS [⟨some "USD", some vs, some ns, none⟩] false =
      .ret { rate := round2 q, raw_rate := q, vunit_rate := round4 q,
             change := round2 cS, change_percent := round2 (cS / q * 100),
             date := d, nominal := n, source := "cbr.ru", is_real_data := true } := by
  simp only [scanValutes, parseNominal, parseVunit, hv, hn, if_neg hq, if_pos rfl]
  rw [if_pos trivial]

/-- Claim C2: for every failing collaborator outcome — transport error,
timeout, HTTP error status, malformed payload, or target currency absent from
a well-formed payload — `get_current_usd_rate` signals no error to its
caller: it returns the synthetic fallback quote, whose rate is positive and
which is flagged as not real data. -/
theorem resolver_never_fails (o : FetchOutcome) (cS jS fS : ℚ) (t : String)
    (ho : failedOutcome o) (hj0 : -(1 / 5) ≤ jS) (_hj1 : jS ≤ 1 / 5) :
    get_current_usd_rate o cS jS fS t = fallbackQuote jS fS t ∧
      0 < (get_current_usd_rate o cS jS fS t).rate ∧
      (get_current_usd_rate o cS jS fS t).is_real_data = false := by
  have he := failed_fallback cS jS fS t ho
  have hr : 0 < (fallbackQuote jS fS t).rate := by
    have h := abs_le.mp (round2_close (7823 / 100 + jS))
    show 0 < round2 (7823 / 100 + jS)
    linarith [h.1]
  refine ⟨he, by rw [he]; exact hr, by rw [he]; rfl⟩

/-- Witness for the C2 theorem at a concrete failing outcome. -/
theorem resolver_never_fails_witness :
    get_current_usd_rate .transportError 0 0 0 "x" = fallbackQuote 0 0 "x" ∧
      0 < (get_current_usd_rate .transportError 0 0 0 "x").rate ∧
      (get_current_usd_rate .transportError 0 0 0 "x").is_real_data = false :=
  resolver_never_fails .transportError 0 0 0 "x" (Or.inl rfl) (by norm_num) (by norm_num)

/-- Claim C7: when every live acquisition attempt fails, the returned quote is
the deterministic fallback: its rate lies in [78.03, 78.43] — the 2-decimal
rounding of base 78.23 plus a jitter in [-0.2, 0.2] — `is_real_data` is
false, and `source` names the demo fallback. -/
theorem fallback_quote_shape (o : FetchOutcome) (cS jS fS : ℚ) (t : String)
    (ho : failedOutcome o) (hj0 : -(1 / 5) ≤ jS) (hj1 : jS ≤ 1 / 5) :
    7803 / 100 ≤ (get_current_usd_rate o cS jS fS t).rate ∧
      (get_current_usd_rate o cS jS fS t).rate ≤ 7843 / 100 ∧
      (get_current_usd_rate o cS jS fS t).is_real_data = false ∧
      (get_current_usd_rate o cS jS fS t).source = "demo (на основе данных ЦБ РФ)" := by
  rw [failed_fallback cS jS fS t ho]
  refine ⟨?_, ?_, rfl, rfl⟩
  · have h := round2_mono (show (7803 / 100 : ℚ) ≤ 7823 / 100 + jS by linarith)
    have e : round2 (7803 / 100 : ℚ) = 7803 / 100 := by norm_num [round2, round_eq]
    rw [e] at h
    exact h
  · have h := round2_mono (show (7823 / 100 + jS : ℚ) ≤ 7843 / 100 by linarith)
    have e : round2 (7843 / 100 : ℚ) = 7843 / 100 := by norm_num [round2, round_eq]
    rw [e] at h
    exact h

/-- Witness for the C7 theorem at a concrete failing outcome. -/
theorem fallback_quote_shape_witness :
    7803 / 100 ≤ (get_current_usd_rate .timeout 0 0 0 "x").rate ∧
      (get_current_usd_rate .timeout 0 0 0 "x").rate ≤ 7843 / 100 ∧
      (get_current_usd_rate .timeout 0 0 0 "x").is_real_data = false ∧
      (get_current_usd_rate .timeout 0 0 0 "x").source = "demo (на основе данных ЦБ РФ)" :=
  fallback_quote_shape .timeout 0 0 0 "x" (Or.inr (Or.inl rfl)) (by norm_num) (by norm_num)

/-- Claim C9: a well-formed document containing a USD record without a Value
element makes `get_current_usd_rate` neither raise nor return a real-data
quote: the `usd_found` flag suppresses the explicit raise, the loop falls
through, and the synthetic fallback is returned with `is_real_data = false`. -/
theorem usd_without_value_falls_back (doc : XmlDoc) (cS jS fS : ℚ) (t : String)
    (hdoc : usdNoValue doc) :
    get_current_usd_rate (.parsed doc) cS jS fS t = fallbackQuote jS fS t ∧
      (get_current_usd_rate (.parsed doc) cS jS fS t).is_real_data = false := by
  obtain ⟨b2, hb⟩ := scan_usd_skip (doc.dateAttr.getD t) cS doc.valutes false hdoc.2
  have he : get_current_usd_rate (.parsed doc) cS jS fS t = fallbackQuote jS fS t := by
    show afterLoop _ (scanValutes _ _ _ _) = _
    rw [hb]
    rfl
  exact ⟨he, by rw [he]; rfl⟩

/-- Witness for the C9 theorem: a single-record document, USD, no Value. -/
theorem usd_without_value_falls_back_witness :
    get_current_usd_rate (.parsed ⟨none, [⟨some "USD", none, none, none⟩]⟩) 0 0 0 "x"
        = fallbackQuote 0 0 "x" ∧
      (get_current_usd_rate
          (.parsed ⟨none, [⟨some "USD", none, none, none⟩]⟩) 0 0 0 "x").is_real_data
        = false :=
  usd_without_value_falls_back _ 0 0 0 "x"
    ⟨⟨⟨some "USD", none, none, none⟩, List.mem_singleton_self _, rfl⟩,
      fun v hv _ => by rw [List.mem_singleton] at hv; rw [hv]⟩

theorem parse_9250 : parseDecimal (replaceComma "92,50") = some (925 / 10) := by
  have h2 : (replaceComma "92,50").data = ['9', '2', '.', '5', '0'] := by decide
  have h : decimalParts ['9', '2', '.', '5', '0'] = some (92, 50, 2) := by decide
  simp [parseDecimal, h2, h, partsVal]
  norm_num

theorem parse_7823v : parseDecimal (replaceComma "78,23") = some (7823 / 100) := by
  have h2 : (replaceComma "78,23").data = ['7', '8', '.', '2', '3'] := by decide
  have h : decimalParts ['7', '8', '.', '2', '3'] = some (78, 23, 2) := by decide
  simp [parseDecimal, h2, h, partsVal]
  norm_num

theorem parseInt_100 : parseInt "100" = some 100 := by
  have h2 : ("100" : String).data = ['1', '0', '0'] := by decide
  have h : parseDigits ['1', '0', '0'] = some 100 := by decide
  simp [parseInt, h2, h]

theorem parseInt_1 : parseInt "1" = some 1 := by
  have h2 : ("1" : String).data = ['1'] := by decide
  have h : parseDigits ['1'] = some 1 := by decide
  simp [parseInt, h2, h]

/-- Claim C4 counterexample: a well-formed USD record with value `"92,50"`
and nominal `"100"` resolves to rate 92.50, not 92.50 / 100 = 0.925: the code
parses the nominal field but never divides the value by it. -/
theorem value_not_divided_by_nominal_cx :
    (get_current_usd_rate
          (.parsed ⟨none, [⟨some "USD", some "92,50", some "100", none⟩]⟩)
          0 0 0 "x").rate = 925 / 10 ∧
      (get_current_usd_rate
          (.parsed ⟨none, [⟨some "USD", some "92,50", some "100", none⟩]⟩)
          0 0 0 "x").nominal = 100 ∧
      (925 / 10 : ℚ) ≠ 925 / 10 / 100 := by
  have h := scan_single_usd "x" 0 "92,50" "100" (925 / 10) 100 parse_9250
    (by norm_num) parseInt_100
  have he : get_current_usd_rate
      (.parsed ⟨none, [⟨some "USD", some "92,50", some "100", none⟩]⟩) 0 0 0 "x"
      = { rate := round2 (925 / 10), raw_rate := 925 / 10,
          vunit_rate := round4 (925 / 10), change := round2 0,
          change_percent := round2 (0 / (925 / 10) * 100), date := "x",
          nominal := 100, source := "cbr.ru", is_real_data := true } := by
    show afterLoop (fallbackQuote 0 0 "x")
        (scanValutes "x" 0 [⟨some "USD", some "92,50", some "100", none⟩] false) = _
    rw [h]
    rfl
  refine ⟨by rw [he]; norm_num [round2, round_eq], by rw [he], by norm_num⟩

/-- Claim C4 (amended): for a well-formed USD record with value `v` (a locale
comma tolerated) and nominal `n`, the resolved quote has `rate = round(v, 2)`
and `raw_rate = v` — the parsed value alone, not `v / n`; the nominal is
parsed and carried in the quote but never divides the value.  For nominal 1
this coincides with `v / n`, so the `"92,50"` / `"1"` scenario resolves to
92.50 with `is_real_data = true`. -/
theorem primary_rate_ignores_nominal (dA : Option String) (vs ns t : String)
    (q : ℚ) (n : ℤ) (cS jS fS : ℚ)
    (hv : parseDecimal (replaceComma vs) = some q) (hq : q ≠ 0)
    (hn : parseInt ns = some n) :
    get_current_usd_rate (.parsed ⟨dA, [⟨some "USD", some vs, some ns, none⟩]⟩) cS jS fS t
      = { rate := round2 q, raw_rate := q, vunit_rate := round4 q,
          change := round2 cS, change_percent := round2 (cS / q * 100),
          date := dA.getD t, nominal := n, source := "cbr.ru",
          is_real_data := true } := by
  show afterLoop _ (scanValutes (dA.getD t) cS [⟨some "USD", some vs, some ns, none⟩] false) = _
  rw [scan_single_usd _ _ _ _ _ _ hv hq hn]
  rfl

/-- Witness for the C4 amended theorem: value `"92,50"`, nominal `"1"` gives
rate `round2 92.50 = 92.50` with `is_real_data = true`. -/
theorem primary_rate_ignores_nominal_witness :
    (get_current_usd_rate
          (.parsed ⟨none, [⟨some "USD", some "92,50", some "1", none⟩]⟩) 0 0 0 "x"
        = { rate := round2 (925 / 10), raw_rate := 925 / 10,
            vunit_rate := round4 (925 / 10), change := round2 0,
            change_percent := round2 (0 / (925 / 10) * 100), date := "x",
            nominal := 1, source := "cbr.ru", is_real_data := true }) ∧
      round2 (925 / 10) = 925 / 10 :=
  ⟨primary_rate_ignores_nominal none "92,50" "1" "x" (925 / 10) 1 0 0 0 parse_9250
      (by norm_num) parseInt_1,
    by norm_num [round2, round_eq]⟩

/-- Claim C5 (modelled from the spec; the proxy-rotation revision is not
among the files under src/): when the primary direct attempt times out, the
resolver retries the same source through the ordered proxy relays; each
failing relay is discarded and the first relay answering HTTP 200 with a
usable record short-circuits, producing a quote with the extracted rate and
the proxy strategy tag. -/
theorem proxy_rotation_shortcircuit (bad : List NetAttempt)
    (hbad : ∀ b ∈ bad, attemptRate b = none) (doc : XmlDoc) (q : ℚ)
    (hdoc : specExtractRate doc = some q) (rest : List NetAttempt)
    (alts : List (Option ℚ)) (j : ℚ) :
    resolve .timeout (bad ++ .resp 200 (some doc) :: rest) alts j
      = ⟨round2 q, "cbr.ru (proxy)", true⟩ := by
  have ha : attemptRate (.resp 200 (some doc)) = some q := by
    show (if 200 = 200 then specExtractRate doc else none) = some q
    rw [if_pos rfl, hdoc]
  have hp : tryProxies (bad ++ .resp 200 (some doc) :: rest) = some q := by
    rw [tryProxies_append_none bad hbad]
    simp only [tryProxies, ha]
  show quoteFromProxies (bad ++ .resp 200 (some doc) :: rest) alts j = _
  simp only [quoteFromProxies, hp]

/-- Witness for the C5 theorem: the spec's scenario — primary times out, the
first proxy times out, the second proxy answers HTTP 200 with a record of
value 78,23 and nominal 1, giving rate 78.23 tagged as the proxy strategy. -/
theorem proxy_rotation_shortcircuit_witness :
    resolve .timeout ([.timeout] ++ .resp 200 (some doc7823) :: []) [] 0
        = ⟨round2 (7823 / 100), "cbr.ru (proxy)", true⟩ ∧
      round2 ((7823 : ℚ) / 100) = 7823 / 100 := by
  constructor
  · apply proxy_rotation_shortcircuit
    · intro b hb
      rw [List.mem_singleton] at hb
      rw [hb]
      rfl
    · show specExtractRate doc7823 = some (7823 / 100)
      simp only [specExtractRate, doc7823, List.findSome?, parseNominal,
        parse_7823v, parseInt_1, Option.some_bind, if_pos rfl]
      norm_num
  · norm_num [round2, round_eq]

/-- Claim C1 counterexample: with anchor 78.23 > 0, days = 2, today on a
Friday (day number 4) and a legal weekday volatility sample of 0.5, the last
point's price is 78.81 ≠ round(78.23, 2) = 78.23: the code pins the FIRST
(oldest) point to the anchor, and today's point is a random-walk value. -/
theorem last_point_not_anchor_cx :
    (0 : ℚ) < 7823 / 100 ∧ (1 : ℕ) ≤ 2 ∧ volValid 4 2 (fun _ => 1 / 2) ∧
      ((generate_historical_data (7823 / 100) 2 4 (fun _ => 1 / 2)).getLast?.map
          HistoryPoint.price) = some (7881 / 100) ∧
      (7881 / 100 : ℚ) ≠ round2 (7823 / 100) := by
  refine ⟨by norm_num, by norm_num, ?_, ?_, ?_⟩
  · intro i hi h1
    have hi1 : i = 1 := by omega
    subst hi1
    norm_num [isWeekday, histDate]
  · have hr : List.range 2 = [0, 1] := by decide
    rw [generate_historical_data, hr]
    simp only [List.map_cons, List.map_nil, List.getLast?_cons_cons,
      List.getLast?_singleton, Option.map_some']
    norm_num [storedPrice, clampBand, round2, round_eq, abs]
  · norm_num [round2, round_eq]

/-- Claim C1 (amended): for every anchor a > 0 and days ≥ 1, the FIRST
(oldest) point's price equals round(a, 2); the last point's price equals
round(a, 2) only in the degenerate case days = 1 — today's point is
otherwise a random-walk value. -/
theorem first_point_pinned_to_anchor (a : ℚ) (days : ℕ) (today : ℤ)
    (vol : ℕ → ℚ) (_ha : 0 < a) (hd : 1 ≤ days) :
    ((generate_historical_data a days today vol).head?.map HistoryPoint.price)
        = some (round2 a) ∧
      (days = 1 →
        ((generate_historical_data a days today vol).getLast?.map HistoryPoint.price)
          = some (round2 a)) := by
  obtain ⟨k, rfl⟩ := Nat.exists_eq_add_of_le hd
  constructor
  · rw [generate_historical_data, show 1 + k = k + 1 by ring, List.range_succ_eq_map]
    simp only [List.map_cons, List.head?_cons, Option.map_some']
    rfl
  · intro h1
    have hk : k = 0 := by omega
    subst hk
    rw [generate_historical_data]
    have hr : List.range (1 + 0) = [0] := by decide
    rw [hr]
    simp only [List.map_cons, List.map_nil, List.getLast?_singleton, Option.map_some']
    rfl

/-- Witness for the C1 amended theorem. -/
theorem first_point_pinned_to_anchor_witness :
    ((generate_historical_data 1 1 0 (fun _ => 0)).head?.map HistoryPoint.price)
        = some (round2 1) ∧
      ((1 : ℕ) = 1 →
        ((generate_historical_data 1 1 0 (fun _ => 0)).getLast?.map HistoryPoint.price)
          = some (round2 1)) :=
  first_point_pinned_to_anchor 1 1 0 (fun _ => 0) (by norm_num) (by norm_num)

/-- Claim C3 counterexample: anchor 78.226 and five weekday volatility
samples of 0.8 drive the walk to the clamp at the last day; the clamped
value 81.226 rounds up to a stored price of 81.23, which deviates from the
anchor by 3.004 > 3. -/
theorem band_exceeded_cx :
    (1 : ℕ) ≤ 5 ∧ volValid 4 5 (fun _ => 4 / 5) ∧
      ((generate_historical_data (78226 / 1000) 5 4 (fun _ => 4 / 5)).getLast?.map
          HistoryPoint.price) = some (8123 / 100) ∧
      3 < |(8123 / 100 : ℚ) - 78226 / 1000| := by
  refine ⟨by norm_num, ?_, ?_, by norm_num [abs]⟩
  · intro i hi h1
    interval_cases i <;> norm_num [isWeekday, histDate]
  · have hr : List.range 5 = [0, 1, 2, 3, 4] := by decide
    rw [generate_historical_data, hr]
    simp only [List.map_cons, List.map_nil, List.getLast?_cons_cons,
      List.getLast?_singleton, Option.map_some']
    norm_num [storedPrice, clampBand, round2, round_eq, abs]

/-- Claim C3 (amended): the ±3 band is enforced on the pre-rounding walk
value; the stored per-point price — rounded to 2 decimals after clamping —
satisfies |price − anchor| ≤ 3 + 1/200 for every point, every anchor and
every volatility stream. -/
theorem band_within_rounding (a : ℚ) (days : ℕ) (today : ℤ) (vol : ℕ → ℚ)
    (p : HistoryPoint) (hp : p ∈ generate_historical_data a days today vol) :
    |p.price - a| ≤ 3 + 1 / 200 := by
  rw [generate_historical_data] at hp
  obtain ⟨i, hi, rfl⟩ := List.mem_map.mp hp
  simpa using storedPrice_close a vol i

/-- Witness for the C3 amended theorem at a concrete series point. -/
theorem band_within_rounding_witness :
    |({ date := (0 : ℤ), price := round2 1 } : HistoryPoint).price - 1| ≤ 3 + 1 / 200 :=
  band_within_rounding 1 1 0 (fun _ => 0) { date := (0 : ℤ), price := round2 1 } (by
    rw [generate_historical_data]
    have hr : List.range 1 = [0] := by decide
    rw [hr]
    simp only [List.map_cons, List.map_nil, List.mem_singleton]
    rfl)

/-- Claim C6: the series has exactly `days` points, their dates are
consecutive ascending calendar days, and the last date is today. -/
theorem series_shape (a : ℚ) (days : ℕ) (today : ℤ) (vol : ℕ → ℚ)
    (hd : 1 ≤ days) :
    (generate_historical_data a days today vol).length = days ∧
      List.Chain' (fun p q : HistoryPoint => q.date = p.date + 1)
        (generate_historical_data a days today vol) ∧
      ((generate_historical_data a days today vol).getLast?.map HistoryPoint.date)
        = some today := by
  obtain ⟨k, rfl⟩ := Nat.exists_eq_add_of_le hd
  refine ⟨by simp [generate_historical_data], ?_, ?_⟩
  · rw [generate_historical_data, List.chain'_map, show 1 + k = k + 1 by ring,
      List.chain'_range_succ]
    intro m hm
    simp only [histDate]
    push_cast
    ring
  · rw [generate_historical_data, show 1 + k = k + 1 by ring, List.range_succ,
      List.map_append]
    simp only [List.map_cons, List.map_nil]
    rw [List.getLast?_concat]
    simp only [Option.map_some', Option.some.injEq, histDate]
    push_cast
    ring

/-- Witness for the C6 theorem. -/
theorem series_shape_witness :
    (generate_historical_data 1 2 0 (fun _ => 0)).length = 2 ∧
      List.Chain' (fun p q : HistoryPoint => q.date = p.date + 1)
        (generate_historical_data 1 2 0 (fun _ => 0)) ∧
      ((generate_historical_data 1 2 0 (fun _ => 0)).getLast?.map HistoryPoint.date)
        = some 0 :=
  series_shape 1 2 0 (fun _ => 0) (by norm_num)

/-- Claim C8: for every interior day i ≥ 1, the pre-clamp walk value equals
the previous day's stored price plus the volatility sample plus the drift
anchor * 0.001; the sample lies in [-0.8, 0.8] when the day is a weekday and
in [-0.2, 0.2] when it is a weekend; the series stores the clamped, rounded
image of that raw value. -/
theorem interior_step (a : ℚ) (days : ℕ) (today : ℤ) (vol : ℕ → ℚ)
    (hvol : volValid today days vol) (i : ℕ) (hi : i + 1 < days) :
    rawPrice a vol (i + 1) = storedPrice a vol i + vol (i + 1) + a * (1 / 1000) ∧
      ((generate_historical_data a days today vol).map HistoryPoint.price)[i + 1]?
        = some (round2 (clampBand a (rawPrice a vol (i + 1)))) ∧
      (isWeekday (histDate today days (i + 1)) = true →
        -(4 / 5) ≤ vol (i + 1) ∧ vol (i + 1) ≤ 4 / 5) ∧
      (isWeekday (histDate today days (i + 1)) = false →
        -(1 / 5) ≤ vol (i + 1) ∧ vol (i + 1) ≤ 1 / 5) := by
  have hv := hvol (i + 1) hi (by omega)
  refine ⟨rfl, ?_, ?_, ?_⟩
  · rw [generate_historical_data, List.map_map, List.getElem?_map,
      List.getElem?_range hi]
    rfl
  · intro hw
    simpa [hw] using hv
  · intro hw
    simpa [hw] using hv

/-- Witness for the C8 theorem: two-day series, zero volatility samples. -/
theorem interior_step_witness :
    rawPrice 1 (fun _ => 0) 1 = storedPrice 1 (fun _ => 0) 0 + 0 + 1 * (1 / 1000) ∧
      ((generate_historical_data 1 2 0 (fun _ => 0)).map HistoryPoint.price)[1]?
        = some (round2 (clampBand 1 (rawPrice 1 (fun _ => 0) 1))) ∧
      (isWeekday (histDate 0 2 1) = true → -(4 / 5) ≤ (0 : ℚ) ∧ (0 : ℚ) ≤ 4 / 5) ∧
      (isWeekday (histDate 0 2 1) = false → -(1 / 5) ≤ (0 : ℚ) ∧ (0 : ℚ) ≤ 1 / 5) :=
  interior_step 1 2 0 (fun _ => 0)
    (by
      intro i hi h1
      have hi1 : i = 1 := by omega
      subst hi1
      norm_num [isWeekday, histDate])
    0 (by norm_num)

/-- Claim C10: every stored series price is already rounded to 2 decimal
places — price = round(price, 2) — including the interior random-walk
points. -/
theorem prices_are_rounded (a : ℚ) (days : ℕ) (today : ℤ) (vol : ℕ → ℚ)
    (p : HistoryPoint) (hp : p ∈ generate_historical_data a days today vol) :
    p.price = round2 p.price := by
  rw [generate_historical_data] at hp
  obtain ⟨i, hi, rfl⟩ := List.mem_map.mp hp
  exact (storedPrice_round2 a vol i).symm

/-- Witness for the C10 theorem at a concrete series point. -/
theorem prices_are_rounded_witness :
    ({ date := (0 : ℤ), price := round2 2 } : HistoryPoint).price
      = round2 ({ date := (0 : ℤ), price := round2 2 } : HistoryPoint).price :=
  prices_are_rounded 2 1 0 (fun _ => 0) { date := (0 : ℤ), price := round2 2 } (by
    rw [generate_historical_data]
    have hr : List.range 1 = [0] := by decide
    rw [hr]
    simp only [List.map_cons, List.map_nil, List.mem_singleton]
    rfl)
